import Mathlib

/-!
Shallow embedding of the wager-settlement engine of `src/app.py`
(Viizorr/CFB26_Fakebook).

Monetary values are Python `Decimal`s; we model them as exact rationals
(`ℚ`) together with the two rounding operations that the code actually
performs:

* `.quantize(Decimal("0.01"))` under the default context, i.e. rounding to
  the cent with ties going to the even cent (`quantize2`);
* the default `Decimal` context applied to every multiplication and
  division, which keeps 28 significant digits with half-even rounding
  (`round28`, used through `decMul`/`decDiv`).

`Decimal` addition and subtraction also round at 28 significant digits,
but every sum or difference formed by this code (scores, score margins
minus lines, stakes plus profits, balances plus payouts) is a decimal
number of far fewer than 28 significant digits, so we model them as exact.

The parlay-resolution loop computes each leg multiplier with Python
*float* arithmetic (`Decimal(1 + (o/100 if o > 0 else 100/abs(o)))`); we
model IEEE-754 double rounding exactly as round-to-nearest, ties-to-even
at 53 bits of precision (`floatRound`; the values involved are far from
the overflow and subnormal ranges, which are therefore not modelled).

Fallible operations (`Decimal` division by zero, a missing database row)
are modelled with `Option`; `none` means the request raises.
-/

namespace CFB26

/-- Round a rational to the nearest integer with ties going to the even
integer, as Python `Decimal`'s `ROUND_HALF_EVEN` does at integer scale. -/
def roundHalfEvenInt (x : ℚ) : ℤ :=
  let f := ⌊x⌋
  let r := x - (f : ℚ)
  if r < 1/2 then f
  else if 1/2 < r then f + 1
  else if f % 2 = 0 then f else f + 1

/-- Model of `.quantize(Decimal("0.01"))` under the default context
(round half to even at the cent). -/
def quantize2 (x : ℚ) : ℚ := (roundHalfEvenInt (x * 100) : ℚ) / 100

/-- Fuel-driven base-`b` logarithm on `ℕ` (structural recursion, so that
the kernel can evaluate it inside `decide`). -/
def natLogAux (b : ℕ) : ℕ → ℕ → ℕ
  | 0, _ => 0
  | fuel + 1, n => if n < b then 0 else natLogAux b fuel (n / b) + 1

/-- For `2 ≤ b` and `n ≠ 0`, the exponent `e` with `b ^ e ≤ n < b ^ (e + 1)`. -/
def natLog (b n : ℕ) : ℕ := natLogAux b n n

/-- Integer powers of ten as rationals (avoiding `zpow` so that every
definition evaluates by `decide`). -/
def pow10 (e : ℤ) : ℚ :=
  if 0 ≤ e then ((10 : ℚ) ^ e.toNat) else ((10 : ℚ) ^ (-e).toNat)⁻¹

/-- For `x ≠ 0`, the exponent `e` with `10 ^ e ≤ |x| < 10 ^ (e + 1)`. -/
def floorLog10 (x : ℚ) : ℤ :=
  let a : ℤ := natLog 10 x.num.natAbs
  let b : ℤ := natLog 10 x.den
  if |x| < pow10 (a - b) then a - b - 1 else a - b

/-- Round `x` to `p` significant decimal digits, half to even: the
rounding that Python's default `Decimal` context (`prec = 28`,
`ROUND_HALF_EVEN`) applies to every arithmetic result. -/
def roundSig (p : ℕ) (x : ℚ) : ℚ :=
  if x = 0 then 0
  else
    let e := floorLog10 x
    let sgn : ℚ := if x < 0 then -1 else 1
    sgn * (roundHalfEvenInt (|x| * pow10 ((p : ℤ) - 1 - e)) : ℚ) * pow10 (e - (p : ℤ) + 1)

/-- The default `Decimal` context precision of 28 significant digits. -/
def round28 (x : ℚ) : ℚ := roundSig 28 x

/-- Python `Decimal` multiplication under the default context. -/
def decMul (x y : ℚ) : ℚ := round28 (x * y)

/-- Python `Decimal` division under the default context (call sites
guard against a zero divisor). -/
def decDiv (x y : ℚ) : ℚ := round28 (x / y)

/-- Integer powers of two as rationals. -/
def pow2 (e : ℤ) : ℚ :=
  if 0 ≤ e then ((2 : ℚ) ^ e.toNat) else ((2 : ℚ) ^ (-e).toNat)⁻¹

/-- For `x ≠ 0`, the exponent `e` with `2 ^ e ≤ |x| < 2 ^ (e + 1)`. -/
def floorLog2 (x : ℚ) : ℤ :=
  let a : ℤ := natLog 2 x.num.natAbs
  let b : ℤ := natLog 2 x.den
  if |x| < pow2 (a - b) then a - b - 1 else a - b

/-- The IEEE-754 binary64 value nearest to `x` (round to nearest, ties to
even, 53-bit significand; overflow and subnormals do not occur for the
magnitudes this code produces and are not modelled). Python computes
`o/100`, `100/abs(o)` and `1 + f` in this arithmetic inside the parlay
loop, and `Decimal(f)` converts the resulting double exactly. -/
def floatRound (x : ℚ) : ℚ :=
  if x = 0 then 0
  else
    let e := floorLog2 x
    let sgn : ℚ := if x < 0 then -1 else 1
    sgn * (roundHalfEvenInt (|x| * pow2 (52 - e)) : ℚ) * pow2 (e - 52)

/-! ## Data model

One structure per SQLAlchemy model (src/app.py lines 48-178), keeping the
fields that the settlement engine reads or writes.  The source's `Prop`
model is called `PropMarket` here because `Prop` is a reserved name in
Lean.  `Numeric` columns are rationals, `Integer` columns are integers,
nullable columns are `Option`s. -/

structure User where
  id : ℕ
  balance : ℚ
  deriving Repr, DecidableEq

structure Game where
  id : ℕ
  status : String
  homeScore : Option ℤ
  awayScore : Option ℤ
  deriving Repr, DecidableEq

structure Bet where
  id : ℕ
  userId : ℕ
  gameId : ℕ
  propId : Option ℕ
  betType : String
  selection : String
  odds : ℤ
  line : Option ℚ
  stake : ℚ
  status : String
  payout : ℚ
  deriving Repr, DecidableEq

structure ParlayBet where
  id : ℕ
  userId : ℕ
  stake : ℚ
  status : String
  payout : ℚ
  deriving Repr, DecidableEq

structure ParlayLeg where
  id : ℕ
  parlayId : ℕ
  gameId : ℕ
  betType : String
  selection : String
  odds : ℤ
  line : Option ℚ
  result : String
  deriving Repr, DecidableEq

structure PropMarket where
  id : ℕ
  gameId : ℕ
  propType : String
  line : Option ℚ
  status : String
  resultValue : Option ℚ
  resultBool : Option Bool
  deriving Repr, DecidableEq

/-- The database rows the settlement engine touches, in insertion order
(the order in which the `.all()` queries return them). -/
structure DBState where
  users : List User
  games : List Game
  bets : List Bet
  parlays : List ParlayBet
  legs : List ParlayLeg
  props : List PropMarket
  deriving Repr, DecidableEq

/-! ## Odds converter -/

/-- Model of `american_profit` (src/app.py lines 204-209):

    def american_profit(stake, odds):
        stake = Decimal(stake)
        if odds > 0:
            return (stake * Decimal(odds) / Decimal(100)).quantize(Decimal("0.01"))
        else:
            return (stake * Decimal(100) / Decimal(abs(odds))).quantize(Decimal("0.01"))

For `odds = 0` the `else` branch divides by `Decimal(abs(0)) = 0`, which
raises `decimal.DivisionByZero`; that is `none` here. -/
def american_profit (stake : ℚ) (odds : ℤ) : Option ℚ :=
  if odds > 0 then
    some (quantize2 (decDiv (decMul stake odds) 100))
  else if odds = 0 then
    none
  else
    some (quantize2 (decDiv (decMul stake 100) (odds.natAbs : ℚ)))

/-! ## Market grader: single bets

The body of the bet loop of `admin_grade_game` (src/app.py lines 613-643),
as a function of the score margin and total.  It yields the new status
and the raw payout (which the loop then quantizes); a `won` outcome calls
`american_profit`, so a zero-odds winning bet propagates the exception
(`none`).  `Decimal(bet.line or 0)` treats a missing (or zero) line as 0,
which is `b.line.getD 0` since `Decimal("0.00")` and `Decimal(0)` are the
same number.  Any `bet_type` other than ML/SPREAD/TOTAL keeps the
initialisation `result = "lost"; payout = Decimal("0.00")`. -/
def gradeBetOutcome (margin totalPts : ℤ) (b : Bet) : Option (String × ℚ) :=
  if b.betType = "ML" then
    let winner : Option String :=
      if margin > 0 then some "HOME" else if margin < 0 then some "AWAY" else none
    match winner with
    | none => some ("push", b.stake)
    | some w =>
        if b.selection = w then
          (american_profit b.stake b.odds).map (fun pr => ("won", b.stake + pr))
        else some ("lost", 0)
  else if b.betType = "SPREAD" then
    let line : ℚ := b.line.getD 0
    let homeAdjusted : ℚ := (margin : ℚ) - line
    if homeAdjusted = 0 then some ("push", b.stake)
    else
      let homeCovers := homeAdjusted > 0
      let pickHome := b.selection = "HOME"
      if (homeCovers ∧ pickHome) ∨ (¬homeCovers ∧ ¬pickHome) then
        (american_profit b.stake b.odds).map (fun pr => ("won", b.stake + pr))
      else some ("lost", 0)
  else if b.betType = "TOTAL" then
    let line : ℚ := b.line.getD 0
    if (totalPts : ℚ) = line then some ("push", b.stake)
    else
      let wentOver := (totalPts : ℚ) > line
      let pickOver := b.selection = "OVER"
      if wentOver ↔ pickOver then
        (american_profit b.stake b.odds).map (fun pr => ("won", b.stake + pr))
      else some ("lost", 0)
  else some ("lost", 0)

/-- The body of the parlay-leg loop of `admin_grade_game` (src/app.py
lines 652-682): identical grading logic, but no payout and hence no
division, so it cannot fail. -/
def gradeLegOutcome (margin totalPts : ℤ) (l : ParlayLeg) : String :=
  if l.betType = "ML" then
    let winner : Option String :=
      if margin > 0 then some "HOME" else if margin < 0 then some "AWAY" else none
    match winner with
    | none => "push"
    | some w => if l.selection = w then "won" else "lost"
  else if l.betType = "SPREAD" then
    let line : ℚ := l.line.getD 0
    let homeAdjusted : ℚ := (margin : ℚ) - line
    if homeAdjusted = 0 then "push"
    else
      let homeCovers := homeAdjusted > 0
      let pickHome := l.selection = "HOME"
      if (homeCovers ∧ pickHome) ∨ (¬homeCovers ∧ ¬pickHome) then "won" else "lost"
  else if l.betType = "TOTAL" then
    let line : ℚ := l.line.getD 0
    if (totalPts : ℚ) = line then "push"
    else
      let wentOver := (totalPts : ℚ) > line
      let pickOver := l.selection = "OVER"
      if wentOver ↔ pickOver then "won" else "lost"
  else "lost"

/-- Credit a user's balance, as
`user.balance = (Decimal(user.balance) + amount).quantize(Decimal("0.01"))`. -/
def creditUser (users : List User) (uid : ℕ) (amount : ℚ) : List User :=
  users.map fun u =>
    if u.id = uid then { u with balance := quantize2 (u.balance + amount) } else u

/-- The single-bet settlement loop of `admin_grade_game` (src/app.py lines
612-648): every bet with `game_id = gid` and `status = "pending"` is
graded, its status and quantized payout stored, and the owner's balance
credited by the payout when the result is `won` or `push`; other bets are
untouched.  Bets are processed in list order, threading the user table. -/
def gradeBetsPass (margin totalPts : ℤ) (gid : ℕ) :
    List Bet → List User → Option (List Bet × List User)
  | [], users => some ([], users)
  | b :: bs, users =>
      if b.gameId = gid ∧ b.status = "pending" then do
        let (res, payoutRaw) ← gradeBetOutcome margin totalPts b
        let b' := { b with status := res, payout := quantize2 payoutRaw }
        let users' :=
          if res = "won" ∨ res = "push" then creditUser users b.userId b'.payout else users
        let (bs', users'') ← gradeBetsPass margin totalPts gid bs users'
        some (b' :: bs', users'')
      else do
        let (bs', users') ← gradeBetsPass margin totalPts gid bs users
        some (b :: bs', users')

/-- The parlay-leg grading loop (src/app.py lines 651-682): every leg with
`game_id = gid` and `result = "pending"` gets its graded result. -/
def gradeLegsPass (margin totalPts : ℤ) (gid : ℕ) (legs : List ParlayLeg) : List ParlayLeg :=
  legs.map fun l =>
    if l.gameId = gid ∧ l.result = "pending" then
      { l with result := gradeLegOutcome margin totalPts l }
    else l

/-- One leg's contribution to the parlay multiplier, exactly as the live
loop computes it (src/app.py line 700):

    mult *= Decimal(1 + (o/100 if o > 0 else 100/abs(o)))

`o/100` and `100/abs(o)` are Python float divisions, `1 + _` is a float
addition, and `Decimal(_)` converts the double exactly.  For `o = 0` the
float division raises `ZeroDivisionError` (`none`). -/
def legFloatMultiplier (o : ℤ) : Option ℚ :=
  if o = 0 then none
  else some (floatRound (1 + floatRound (if o > 0 then (o : ℚ) / 100 else 100 / (o.natAbs : ℚ))))

/-- The multiplier loop of the live parlay-resolution pass (src/app.py
lines 695-700): fold over the parlay's legs, skipping `push` legs, each
`*=` rounding at 28 significant digits. -/
def parlayMult : List ParlayLeg → ℚ → Option ℚ
  | [], acc => some acc
  | l :: ls, acc =>
      if l.result = "push" then parlayMult ls acc
      else do
        let m ← legFloatMultiplier l.odds
        parlayMult ls (decMul acc m)

/-- The parlay-resolution pass of `admin_grade_game` (src/app.py lines
686-707).  It scans every parlay with `status = "pending"` (regardless of
which games its legs reference).  A parlay with a still-pending leg is
skipped.  If any leg is `lost`, only the status is set to `"lost"` (the
payout column keeps its previous value).  Otherwise, when every leg is
`won` or `push` — which is every remaining case, so the final `else`
(`status = "push"`, refund) is unreachable but modelled — the multiplier
is taken over the non-push legs, `payout = (Decimal(pb.stake) *
mult).quantize(Decimal("0.01"))`, the status becomes `"won"` and the
owner is credited. -/
def resolveParlaysPass (legs : List ParlayLeg) :
    List ParlayBet → List User → Option (List ParlayBet × List User)
  | [], users => some ([], users)
  | pb :: ps, users =>
      if pb.status = "pending" then
        let results := (legs.filter fun l => l.parlayId = pb.id).map (·.result)
        if results.any (· = "pending") then do
          let (ps', users') ← resolveParlaysPass legs ps users
          some (pb :: ps', users')
        else if results.contains "lost" then do
          let (ps', users') ← resolveParlaysPass legs ps users
          some ({ pb with status := "lost" } :: ps', users')
        else if results.all (fun r => r = "won" ∨ r = "push") then do
          let mult ← parlayMult (legs.filter fun l => l.parlayId = pb.id) 1
          let payout := quantize2 (decMul pb.stake mult)
          let pb' := { pb with status := "won", payout := payout }
          let users' := creditUser users pb.userId payout
          let (ps', users'') ← resolveParlaysPass legs ps users'
          some (pb' :: ps', users'')
        else do
          let pb' := { pb with status := "push", payout := pb.stake }
          let users' := creditUser users pb.userId pb.stake
          let (ps', users'') ← resolveParlaysPass legs ps users'
          some (pb' :: ps', users'')
      else do
        let (ps', users') ← resolveParlaysPass legs ps users
        some (pb :: ps', users')

/-- Model of the `admin_grade_game` route (src/app.py lines 594-712),
after a successful integer parse of the two submitted scores (a failed
parse flashes "Invalid scores" and settles nothing, and is outside this
function).  There is no check of the game's current status.  `none`
models a missing game (404) or an exception escaping settlement. -/
def admin_grade_game (st : DBState) (gid : ℕ) (homeScore awayScore : ℤ) : Option DBState := do
  let _g ← st.games.find? (fun g => g.id = gid)
  let totalPts := homeScore + awayScore
  let margin := homeScore - awayScore
  let (bets', users') ← gradeBetsPass margin totalPts gid st.bets st.users
  let legs' := gradeLegsPass margin totalPts gid st.legs
  let (parlays', users'') ← resolveParlaysPass legs' st.parlays users'
  let games' := st.games.map fun g =>
    if g.id = gid then
      { g with homeScore := some homeScore, awayScore := some awayScore, status := "graded" }
    else g
  some { st with users := users'', games := games', bets := bets', parlays := parlays', legs := legs' }

/-- Model of the `admin_grade_prop` route (src/app.py lines 770-795).
`resultValueInput` is the `Decimal(...)`-parsed `result_value` form field
(`none` when the parse raises, in which case nothing is stored) and
`resultBoolInput` is the raw `result_bool` form field.  The route stores
the result and sets the prop's status to `graded`, then returns at line
795; the settlement block that follows that `return` is unreachable, so
no bet, parlay or balance is touched. -/
def admin_grade_prop (st : DBState) (pid : ℕ)
    (resultValueInput : Option ℚ) (resultBoolInput : String) : Option DBState := do
  let p ← st.props.find? (fun p => p.id = pid)
  if p.propType = "OU" then
    match resultValueInput with
    | some v =>
        let props' := st.props.map fun q =>
          if q.id = pid then { q with resultValue := some v, status := "graded" } else q
        some { st with props := props' }
    | none => some st
  else
    if resultBoolInput = "true" ∨ resultBoolInput = "false" then
      let props' := st.props.map fun q =>
        if q.id = pid then
          { q with resultBool := some (resultBoolInput = "true"), status := "graded" }
        else q
      some { st with props := props' }
    else some st

/-! ## Spec-side definitions

These two definitions follow the words of the specification (spec.md
§4.1), for comparison with the code's arithmetic. -/

/-- The spec's `decimalMultiplier`: `1 + odds/100` for positive odds,
`1 + 100/|odds|` for negative odds, and the stipulated no-op multiplier
`1` for the invalid input `0` — in exact arithmetic. -/
def decimalMultiplierSpec (o : ℤ) : ℚ :=
  if o > 0 then 1 + (o : ℚ) / 100
  else if o < 0 then 1 + 100 / (o.natAbs : ℚ)
  else 1

/-- Round-half-up at the cent, as spec.md §4.1 prescribes for `profit`. -/
def roundHalfUp2 (x : ℚ) : ℚ := (⌊x * 100 + 1/2⌋ : ℚ) / 100

/-! ## Per-row characterisations of the settlement loops

Auxiliary predicates describing how one iteration of each settlement loop
transforms its row; the lemmas below prove that the recursive passes
satisfy them row by row. -/

/-- How the single-bet loop transforms bet `b` into `b'`. -/
def betStepSpec (margin totalPts : ℤ) (gid : ℕ) (b b' : Bet) : Prop :=
  (¬(b.gameId = gid ∧ b.status = "pending") → b' = b) ∧
  (b.gameId = gid → b.status = "pending" →
    ∃ r, gradeBetOutcome margin totalPts b = some r ∧
      b' = { b with status := r.1, payout := quantize2 r.2 })

/-- How the parlay-resolution loop transforms parlay `pb` into `pb'`,
given the (already re-graded) leg table. -/
def parlayStepSpec (legs : List ParlayLeg) (pb pb' : ParlayBet) : Prop :=
  (pb.status ≠ "pending" → pb' = pb) ∧
  (pb.status = "pending" →
    (((legs.filter fun l => l.parlayId = pb.id).map (·.result)).any (· = "pending") = true →
      pb' = pb) ∧
    (((legs.filter fun l => l.parlayId = pb.id).map (·.result)).any (· = "pending") = false →
      (((legs.filter fun l => l.parlayId = pb.id).map (·.result)).contains "lost" = true →
        pb' = { pb with status := "lost" }) ∧
      (((legs.filter fun l => l.parlayId = pb.id).map (·.result)).contains "lost" = false →
        (((legs.filter fun l => l.parlayId = pb.id).map (·.result)).all
            (fun r => r = "won" ∨ r = "push") = true →
          ∃ m, parlayMult (legs.filter fun l => l.parlayId = pb.id) 1 = some m ∧
            pb' = { pb with status := "won", payout := quantize2 (decMul pb.stake m) }) ∧
        (((legs.filter fun l => l.parlayId = pb.id).map (·.result)).all
            (fun r => r = "won" ∨ r = "push") = false →
          pb' = { pb with status := "push", payout := pb.stake }))))

/-! ## Concrete database states used as test inputs -/

/-- An OU prop about game 1 with one pending single bet on it. -/
def stC1 : DBState :=
  { users := [⟨1, 1000⟩], games := [⟨1, "closed", none, none⟩],
    bets := [⟨1, 1, 1, some 1, "OU", "OVER", -110, some (41/2), 10, "pending", 0⟩],
    parlays := [], legs := [],
    props := [⟨1, 1, "OU", some (41/2), "closed", none, none⟩] }

/-- A pending SPREAD bet on the away side whose line snapshot is missing. -/
def stC2 : DBState :=
  { users := [⟨1, 1000⟩], games := [⟨1, "closed", none, none⟩],
    bets := [⟨1, 1, 1, none, "SPREAD", "AWAY", -110, none, 10, "pending", 0⟩],
    parlays := [], legs := [], props := [] }

/-- A pending parlay whose two spread legs both land exactly on the line
(score 10-7 against a home line of 3), so both legs push. -/
def stC4 : DBState :=
  { users := [⟨1, 1000⟩], games := [⟨1, "closed", none, none⟩], bets := [],
    parlays := [⟨1, 1, 25, "pending", 0⟩],
    legs := [⟨1, 1, 1, "SPREAD", "HOME", -110, some 3, "pending"⟩,
             ⟨2, 1, 1, "SPREAD", "AWAY", -110, some 3, "pending"⟩],
    props := [] }

/-- A single-leg parlay at odds +101 and stake 1.50: the exact payout
1.50 x 2.01 = 3.015 sits exactly on the half-cent. -/
def stC5 : DBState :=
  { users := [⟨1, 1000⟩], games := [⟨1, "closed", none, none⟩], bets := [],
    parlays := [⟨1, 1, 3/2, "pending", 0⟩],
    legs := [⟨1, 1, 1, "ML", "HOME", 101, none, "pending"⟩],
    props := [] }

/-- The spec's concrete parlay scenario: stake 50, legs at +100 and -150. -/
def stC5w : DBState :=
  { users := [⟨1, 1000⟩], games := [⟨1, "closed", none, none⟩], bets := [],
    parlays := [⟨1, 1, 50, "pending", 0⟩],
    legs := [⟨1, 1, 1, "ML", "HOME", 100, none, "pending"⟩,
             ⟨2, 1, 1, "ML", "HOME", -150, none, "pending"⟩],
    props := [] }

/-- A game whose status is already `graded` but which still has a pending
bet attached. -/
def stC7 : DBState :=
  { users := [⟨1, 1000⟩], games := [⟨1, "graded", some 3, some 0⟩],
    bets := [⟨1, 1, 1, none, "ML", "HOME", -110, none, 10, "pending", 0⟩],
    parlays := [], legs := [], props := [] }

/-- An already-graded game all of whose bets and legs are terminal, plus a
pending parlay that still has a pending leg on another game. -/
def stC7w : DBState :=
  { users := [⟨1, 1000⟩], games := [⟨1, "graded", some 7, some 0⟩],
    bets := [⟨1, 1, 1, none, "ML", "HOME", -110, none, 10, "won", 1909/100⟩],
    parlays := [⟨1, 1, 10, "pending", 0⟩],
    legs := [⟨1, 1, 1, "ML", "HOME", 100, none, "won"⟩,
             ⟨2, 1, 2, "ML", "HOME", 100, none, "pending"⟩],
    props := [] }

/-- A pending HOME spread bet with line 3 on a game that ends 10-7. -/
def stC8 : DBState :=
  { users := [⟨1, 1000⟩], games := [⟨1, "closed", none, none⟩],
    bets := [⟨1, 1, 1, none, "SPREAD", "HOME", -110, some 3, 10, "pending", 0⟩],
    parlays := [], legs := [], props := [] }

/-- A bet that is already terminal (`won`, payout 20) when its game is graded. -/
def stC9 : DBState :=
  { users := [⟨1, 1000⟩], games := [⟨1, "closed", none, none⟩],
    bets := [⟨1, 1, 1, none, "ML", "HOME", 100, none, 10, "won", 20⟩],
    parlays := [], legs := [], props := [] }

/-- A pending parlay whose only leg (already `won`) is on game 2, while
game 1 — which the parlay does not touch — is the one being graded. -/
def stC10 : DBState :=
  { users := [⟨1, 1000⟩], games := [⟨1, "closed", none, none⟩], bets := [],
    parlays := [⟨1, 1, 10, "pending", 0⟩],
    legs := [⟨1, 1, 2, "ML", "HOME", 100, none, "won"⟩],
    props := [] }

/-- The state produced by grading the prop of `stC1`. -/
def stC1' : DBState :=
  { stC1 with props := [⟨1, 1, "OU", some (41/2), "graded", some 25, none⟩] }

/-- The state produced by grading game 1 of `stC2` with score 7-0. -/
def stC2' : DBState :=
  { stC2 with
    games := [⟨1, "graded", some 7, some 0⟩],
    bets := [⟨1, 1, 1, none, "SPREAD", "AWAY", -110, none, 10, "lost", 0⟩] }

/-- The state produced by grading game 1 of `stC4` with score 10-7. -/
def stC4' : DBState :=
  { stC4 with
    users := [⟨1, 1025⟩],
    games := [⟨1, "graded", some 10, some 7⟩],
    parlays := [⟨1, 1, 25, "won", 25⟩],
    legs := [⟨1, 1, 1, "SPREAD", "HOME", -110, some 3, "push"⟩,
             ⟨2, 1, 1, "SPREAD", "AWAY", -110, some 3, "push"⟩] }

/-- The state produced by grading game 1 of `stC5` with score 7-0. -/
def stC5' : DBState :=
  { stC5 with
    users := [⟨1, 100301/100⟩],
    games := [⟨1, "graded", some 7, some 0⟩],
    parlays := [⟨1, 1, 3/2, "won", 301/100⟩],
    legs := [⟨1, 1, 1, "ML", "HOME", 101, none, "won"⟩] }

/-- The state produced by grading game 1 of `stC5w` with score 7-0. -/
def stC5w' : DBState :=
  { stC5w with
    users := [⟨1, 116667/100⟩],
    games := [⟨1, "graded", some 7, some 0⟩],
    parlays := [⟨1, 1, 50, "won", 16667/100⟩],
    legs := [⟨1, 1, 1, "ML", "HOME", 100, none, "won"⟩,
             ⟨2, 1, 1, "ML", "HOME", -150, none, "won"⟩] }

/-- The state produced by re-grading the already-graded game of `stC7`
with score 7-0: the still-pending bet is settled and credited. -/
def stC7' : DBState :=
  { stC7 with
    users := [⟨1, 101909/100⟩],
    games := [⟨1, "graded", some 7, some 0⟩],
    bets := [⟨1, 1, 1, none, "ML", "HOME", -110, none, 10, "won", 1909/100⟩] }

/-- The state produced by re-grading the already-graded game of `stC7w`:
only the game row itself changes. -/
def stC7w' : DBState :=
  { stC7w with games := [⟨1, "graded", some 7, some 0⟩] }

/-- The state produced by grading game 1 of `stC8` with score 10-7. -/
def stC8' : DBState :=
  { stC8 with
    users := [⟨1, 1010⟩],
    games := [⟨1, "graded", some 10, some 7⟩],
    bets := [⟨1, 1, 1, none, "SPREAD", "HOME", -110, some 3, 10, "push", 10⟩] }

/-- The state produced by grading game 1 of `stC9` with score 7-0. -/
def stC9' : DBState :=
  { stC9 with games := [⟨1, "graded", some 7, some 0⟩] }

/-- The state produced by grading game 1 of `stC10` with score 7-0. -/
def stC10' : DBState :=
  { stC10 with
    users := [⟨1, 1020⟩],
    games := [⟨1, "graded", some 7, some 0⟩],
    parlays := [⟨1, 1, 10, "won", 20⟩] }

/-! ## Rounding infrastructure lemmas -/

attribute [local semireducible] Rat.add Rat.mul Rat.inv Rat.sub

set_option maxRecDepth 40000

theorem natLogAux_pow_le {b : ℕ} (hb : 2 ≤ b) :
    ∀ fuel n, n ≠ 0 → n ≤ fuel → b ^ natLogAux b fuel n ≤ n := by
  intro fuel
  induction fuel with
  | zero => intro n hn hle; omega
  | succ fuel ih =>
      intro n hn hle
      rw [natLogAux]
      by_cases hsmall : n < b
      · rw [if_pos hsmall]
        simpa using Nat.one_le_iff_ne_zero.mpr hn
      · rw [if_neg hsmall]
        have hbn : b ≤ n := Nat.le_of_not_lt hsmall
        have hmne : n / b ≠ 0 := by
          have : 1 ≤ n / b := (Nat.one_le_div_iff (by omega)).mpr hbn
          omega
        have hmlt : n / b < n := Nat.div_lt_self (by omega) (by omega)
        have hmfuel : n / b ≤ fuel := by omega
        have := ih (n / b) hmne hmfuel
        calc b ^ (natLogAux b fuel (n / b) + 1)
            = b ^ natLogAux b fuel (n / b) * b := by rw [pow_succ]
          _ ≤ n / b * b := Nat.mul_le_mul_right b this
          _ ≤ n := Nat.div_mul_le_self n b

theorem natLogAux_lt_pow {b : ℕ} (hb : 2 ≤ b) :
    ∀ fuel n, n ≤ fuel → n < b ^ (natLogAux b fuel n + 1) := by
  intro fuel
  induction fuel with
  | zero =>
      intro n hle
      have : n = 0 := by omega
      subst this
      simpa [natLogAux] using Nat.pos_pow_of_pos 1 (by omega)
  | succ fuel ih =>
      intro n hle
      rw [natLogAux]
      by_cases hsmall : n < b
      · rw [if_pos hsmall]; simpa using hsmall
      · rw [if_neg hsmall]
        have hbn : b ≤ n := Nat.le_of_not_lt hsmall
        have hmlt : n / b < n := Nat.div_lt_self (by omega) (by omega)
        have hmfuel : n / b ≤ fuel := by omega
        have hrec := ih (n / b) hmfuel
        have : n < b ^ (natLogAux b fuel (n / b) + 1) * b :=
          (Nat.div_lt_iff_lt_mul (by omega)).mp hrec
        calc n < b ^ (natLogAux b fuel (n / b) + 1) * b := this
          _ = b ^ (natLogAux b fuel (n / b) + 1 + 1) := (pow_succ b _).symm

theorem natLog_pow_le {b n : ℕ} (hb : 2 ≤ b) (hn : n ≠ 0) : b ^ natLog b n ≤ n :=
  natLogAux_pow_le hb n n hn le_rfl

theorem natLog_lt_pow {b n : ℕ} (hb : 2 ≤ b) : n < b ^ (natLog b n + 1) :=
  natLogAux_lt_pow hb n n le_rfl

theorem pow10_eq_zpow (e : ℤ) : pow10 e = (10 : ℚ) ^ e := by
  rcases le_or_lt 0 e with h | h
  · rw [pow10, if_pos h, ← zpow_natCast, Int.toNat_of_nonneg h]
  · rw [pow10, if_neg (not_le.mpr h), ← zpow_natCast, Int.toNat_of_nonneg (by omega),
      ← zpow_neg, neg_neg]

theorem pow10_pos (e : ℤ) : 0 < pow10 e := by
  rw [pow10_eq_zpow]
  exact zpow_pos (by norm_num) e

theorem pow10_add (s t : ℤ) : pow10 (s + t) = pow10 s * pow10 t := by
  rw [pow10_eq_zpow, pow10_eq_zpow, pow10_eq_zpow]
  exact zpow_add₀ (by norm_num) s t

theorem pow10_le_pow10 {s t : ℤ} (h : s ≤ t) : pow10 s ≤ pow10 t := by
  rw [pow10_eq_zpow, pow10_eq_zpow]
  exact zpow_le_zpow_right₀ (by norm_num) h

theorem pow10_lt_pow10 {s t : ℤ} (h : s < t) : pow10 s < pow10 t := by
  rw [pow10_eq_zpow, pow10_eq_zpow]
  exact zpow_lt_zpow_right₀ (by norm_num) h

theorem pow10_natCast (k : ℕ) : pow10 (k : ℤ) = ((10 : ℚ)) ^ k := by
  rw [pow10_eq_zpow, zpow_natCast]

theorem abs_eq_natAbs_div_den (x : ℚ) :
    |x| = ((x.num.natAbs : ℚ)) / ((x.den : ℚ)) := by
  conv_lhs => rw [← Rat.num_div_den x]
  rw [abs_div, Nat.abs_cast, Int.cast_natAbs, Int.cast_abs]

theorem pow10_floorLog10_le {x : ℚ} (hx : x ≠ 0) : pow10 (floorLog10 x) ≤ |x| := by
  have hnum : x.num ≠ 0 := Rat.num_ne_zero.mpr hx
  have hn0 : x.num.natAbs ≠ 0 := Int.natAbs_ne_zero.mpr hnum
  have habs : |x| = ((x.num.natAbs : ℚ)) / ((x.den : ℚ)) := abs_eq_natAbs_div_den x
  have hdpos : (0 : ℚ) < (x.den : ℚ) := by exact_mod_cast x.pos
  have hlow : (10 : ℚ) ^ natLog 10 x.num.natAbs ≤ (x.num.natAbs : ℚ) := by
    exact_mod_cast natLog_pow_le (by norm_num) hn0
  have hhigh : ((x.den : ℚ)) < (10 : ℚ) ^ (natLog 10 x.den + 1) := by
    exact_mod_cast natLog_lt_pow (b := 10) (n := x.den) (by norm_num)
  set a : ℤ := (natLog 10 x.num.natAbs : ℤ) with ha
  set b : ℤ := (natLog 10 x.den : ℤ) with hbdef
  have hnpos : (0 : ℚ) < (x.num.natAbs : ℚ) := by
    have : 0 < x.num.natAbs := Nat.pos_of_ne_zero hn0
    exact_mod_cast this
  have hppos : (0 : ℚ) < (10 : ℚ) ^ (natLog 10 x.den + 1) := by positivity
  have hkey : pow10 (a - b - 1) < |x| := by
    rw [habs]
    rw [show a - b - 1 = a + (-(b + 1)) by ring, pow10_add]
    have h1 : pow10 a = (10 : ℚ) ^ natLog 10 x.num.natAbs := pow10_natCast _
    have h2 : pow10 (-(b + 1)) = ((10 : ℚ) ^ (natLog 10 x.den + 1))⁻¹ := by
      rw [pow10_eq_zpow, zpow_neg]
      congr 1
      rw [show b + 1 = ((natLog 10 x.den + 1 : ℕ) : ℤ) by push_cast [hbdef]; ring,
        zpow_natCast]
    rw [h1, h2, ← div_eq_mul_inv, div_lt_div_iff₀ hppos hdpos]
    calc (10 : ℚ) ^ natLog 10 x.num.natAbs * (x.den : ℚ)
        ≤ (x.num.natAbs : ℚ) * (x.den : ℚ) :=
          mul_le_mul_of_nonneg_right hlow (le_of_lt hdpos)
      _ < (x.num.natAbs : ℚ) * (10 : ℚ) ^ (natLog 10 x.den + 1) :=
          (mul_lt_mul_left hnpos).mpr hhigh
  rw [floorLog10]
  by_cases hcase : |x| < pow10 (a - b)
  · rw [if_pos hcase]
    exact le_of_lt hkey
  · rw [if_neg hcase]
    exact le_of_not_lt hcase

theorem roundHalfEvenInt_intCast (k : ℤ) : roundHalfEvenInt (k : ℚ) = k := by
  rw [roundHalfEvenInt]
  simp only [Int.floor_intCast, sub_self]
  norm_num

theorem roundSig_eq (p : ℕ) {x : ℚ} (hx : x ≠ 0) :
    roundSig p x = (if x < 0 then (-1 : ℚ) else 1) *
      (roundHalfEvenInt (|x| * pow10 ((p : ℤ) - 1 - floorLog10 x)) : ℚ) *
      pow10 (floorLog10 x - (p : ℤ) + 1) := by
  rw [roundSig, if_neg hx]

theorem sign_mul_abs (x : ℚ) : (if x < 0 then (-1 : ℚ) else 1) * |x| = x := by
  by_cases hneg : x < 0
  · rw [if_pos hneg, abs_of_neg hneg]; ring
  · rw [if_neg hneg, abs_of_nonneg (le_of_not_lt hneg)]; ring

theorem round28_fix {x : ℚ} (hden : (x * 100).den = 1) (hb : |x| ≤ 10 ^ 25) :
    round28 x = x := by
  by_cases hx : x = 0
  · subst hx; simp [round28, roundSig]
  · have hk : ((x * 100).num : ℚ) = x * 100 := (Rat.den_eq_one_iff _).mp hden
    set k : ℤ := (x * 100).num with hkdef
    have habsx : |x| = |(k : ℚ)| / 100 := by
      rw [hk]
      rw [abs_mul]
      norm_num
    have he25 : floorLog10 x ≤ 25 := by
      by_contra hgt
      push_neg at hgt
      have h1 : pow10 26 ≤ pow10 (floorLog10 x) := pow10_le_pow10 (by omega)
      have h2 : pow10 (floorLog10 x) ≤ |x| := pow10_floorLog10_le hx
      have h3 : pow10 25 < pow10 26 := pow10_lt_pow10 (by norm_num)
      have h4 : pow10 25 = (10 : ℚ) ^ 25 := by
        rw [show (25 : ℤ) = ((25 : ℕ) : ℤ) by norm_num, pow10_natCast]
      linarith
    set e : ℤ := floorLog10 x with hedef
    have hscaled : |x| * pow10 (27 - e) = ((|k| * 10 ^ (25 - e).toNat : ℤ) : ℚ) := by
      rw [habsx, show (27 : ℤ) - e = (25 - e) + 2 by ring, pow10_add]
      rw [show pow10 (25 - e) = (10 : ℚ) ^ (25 - e).toNat from by rw [pow10, if_pos (by omega)]]
      rw [show pow10 2 = (100 : ℚ) from by
        rw [show (2 : ℤ) = ((2 : ℕ) : ℤ) by norm_num, pow10_natCast]; norm_num]
      push_cast
      ring
    rw [round28, roundSig_eq 28 hx, ← hedef]
    rw [show ((28 : ℕ) : ℤ) - 1 - e = 27 - e from by push_cast; ring]
    rw [show e - ((28 : ℕ) : ℤ) + 1 = e - 27 from by push_cast; ring]
    rw [hscaled, roundHalfEvenInt_intCast, ← hscaled]
    have hpow : pow10 (27 - e) * pow10 (e - 27) = 1 := by
      rw [← pow10_add, show (27 : ℤ) - e + (e - 27) = 0 by ring]
      rw [pow10]
      norm_num
    calc (if x < 0 then (-1 : ℚ) else 1) * (|x| * pow10 (27 - e)) * pow10 (e - 27)
        = ((if x < 0 then (-1 : ℚ) else 1) * |x|) * (pow10 (27 - e) * pow10 (e - 27)) := by
          ring
      _ = x := by rw [hpow, sign_mul_abs]; ring

theorem quantize2_fix {x : ℚ} (hden : (x * 100).den = 1) : quantize2 x = x := by
  have hk : ((x * 100).num : ℚ) = x * 100 := (Rat.den_eq_one_iff _).mp hden
  rw [quantize2, ← hk, roundHalfEvenInt_intCast, hk]
  field_simp

theorem den_one_mul_intCast {x : ℚ} (h : x.den = 1) (k : ℤ) : (x * (k : ℚ)).den = 1 := by
  have hx : (x.num : ℚ) = x := (Rat.den_eq_one_iff _).mp h
  rw [← hx, ← Int.cast_mul]
  exact Rat.den_intCast _

/-! ## Structural lemmas about the settlement passes -/

theorem optionBind_eq_some {α β : Type} {x : Option α} {f : α → Option β} {b : β} :
    (x >>= f) = some b ↔ ∃ a, x = some a ∧ f a = some b := by
  cases x with
  | none => simp
  | some a => simp

theorem gradeBetsPass_forall₂ {margin totalPts : ℤ} {gid : ℕ} :
    ∀ {bets : List Bet} {users : List User} {out : List Bet × List User},
      gradeBetsPass margin totalPts gid bets users = some out →
      List.Forall₂ (betStepSpec margin totalPts gid) bets out.1 := by
  intro bets
  induction bets with
  | nil =>
      intro users out H
      rw [gradeBetsPass, Option.some.injEq] at H
      subst H
      exact List.Forall₂.nil
  | cons b bs ih =>
      intro users out H
      rw [gradeBetsPass] at H
      by_cases hcond : b.gameId = gid ∧ b.status = "pending"
      · rw [if_pos hcond] at H
        rw [optionBind_eq_some] at H
        obtain ⟨⟨res, praw⟩, hout, H⟩ := H
        dsimp only at H
        rw [optionBind_eq_some] at H
        obtain ⟨⟨bs', users''⟩, hrec, H⟩ := H
        dsimp only at H
        rw [Option.some.injEq] at H
        subst H
        refine List.Forall₂.cons ⟨fun hn => absurd hcond hn, fun _ _ => ⟨(res, praw), hout, rfl⟩⟩
          (ih hrec)
      · rw [if_neg hcond] at H
        rw [optionBind_eq_some] at H
        obtain ⟨⟨bs', users'⟩, hrec, H⟩ := H
        dsimp only at H
        rw [Option.some.injEq] at H
        subst H
        exact List.Forall₂.cons ⟨fun _ => rfl, fun h1 h2 => absurd ⟨h1, h2⟩ hcond⟩ (ih hrec)

theorem gradeBetsPass_id {margin totalPts : ℤ} {gid : ℕ} :
    ∀ {bets : List Bet} {users : List User},
      (∀ b ∈ bets, ¬(b.gameId = gid ∧ b.status = "pending")) →
      gradeBetsPass margin totalPts gid bets users = some (bets, users) := by
  intro bets
  induction bets with
  | nil => intro users _; rw [gradeBetsPass]
  | cons b bs ih =>
      intro users h
      rw [gradeBetsPass, if_neg (h b (List.mem_cons_self b bs))]
      rw [ih fun x hx => h x (List.mem_cons_of_mem b hx)]
      rfl

theorem gradeLegsPass_id {margin totalPts : ℤ} {gid : ℕ} :
    ∀ {legs : List ParlayLeg},
      (∀ l ∈ legs, ¬(l.gameId = gid ∧ l.result = "pending")) →
      gradeLegsPass margin totalPts gid legs = legs := by
  intro legs
  induction legs with
  | nil => intro _; rfl
  | cons l ls ih =>
      intro h
      have h2 : gradeLegsPass margin totalPts gid ls = ls :=
        ih fun x hx => h x (List.mem_cons_of_mem l hx)
      rw [gradeLegsPass, List.map_cons, if_neg (h l (List.mem_cons_self l ls))]
      rw [gradeLegsPass] at h2
      rw [h2]

theorem gradeLegsPass_parlayId (margin totalPts : ℤ) (gid : ℕ) (l : ParlayLeg) :
    (if l.gameId = gid ∧ l.result = "pending" then
        { l with result := gradeLegOutcome margin totalPts l } else l).parlayId = l.parlayId := by
  by_cases h : l.gameId = gid ∧ l.result = "pending"
  · rw [if_pos h]
  · rw [if_neg h]

theorem gradeLegsPass_filter_parlay {margin totalPts : ℤ} {gid pid : ℕ} :
    ∀ {legs : List ParlayLeg},
      (∀ l ∈ legs, l.parlayId = pid → ¬(l.gameId = gid ∧ l.result = "pending")) →
      (gradeLegsPass margin totalPts gid legs).filter (fun l => l.parlayId = pid) =
        legs.filter (fun l => l.parlayId = pid) := by
  intro legs
  induction legs with
  | nil => intro _; rfl
  | cons l ls ih =>
      intro h
      have htail := ih fun x hx hp => h x (List.mem_cons_of_mem l hx) hp
      rw [gradeLegsPass, List.map_cons, List.filter_cons, List.filter_cons]
      rw [gradeLegsPass] at htail
      by_cases hp : l.parlayId = pid
      · have hfix : (if l.gameId = gid ∧ l.result = "pending" then
            { l with result := gradeLegOutcome margin totalPts l } else l) = l :=
          if_neg (h l (List.mem_cons_self l ls) hp)
        rw [hfix]
        simp only [hp, decide_True]
        rw [htail]
      · have hp' : (if l.gameId = gid ∧ l.result = "pending" then
            { l with result := gradeLegOutcome margin totalPts l } else l).parlayId = l.parlayId :=
          gradeLegsPass_parlayId margin totalPts gid l
        simp only [hp', hp, decide_False]
        exact htail

theorem resolveParlaysPass_forall₂ {legs : List ParlayLeg} :
    ∀ {ps : List ParlayBet} {users : List User} {out : List ParlayBet × List User},
      resolveParlaysPass legs ps users = some out →
      List.Forall₂ (parlayStepSpec legs) ps out.1 := by
  intro ps
  induction ps with
  | nil =>
      intro users out H
      rw [resolveParlaysPass, Option.some.injEq] at H
      subst H
      exact List.Forall₂.nil
  | cons pb ps ih =>
      intro users out H
      rw [resolveParlaysPass] at H
      by_cases hstat : pb.status = "pending"
      · rw [if_pos hstat] at H
        dsimp only at H
        by_cases hany :
            (((legs.filter fun l => l.parlayId = pb.id).map (·.result)).any (· = "pending")) = true
        · rw [if_pos hany] at H
          rw [optionBind_eq_some] at H
          obtain ⟨⟨ps', users'⟩, hrec, H⟩ := H
          dsimp only at H
          rw [Option.some.injEq] at H
          subst H
          refine List.Forall₂.cons ⟨fun hn => absurd hstat hn, fun _ =>
            ⟨fun _ => rfl, fun hfalse => by rw [hany] at hfalse; cases hfalse⟩⟩ (ih hrec)
        · rw [if_neg hany] at H
          have hany' :
              (((legs.filter fun l => l.parlayId = pb.id).map (·.result)).any (· = "pending"))
                = false := by
            exact Bool.not_eq_true _ |>.mp hany
          by_cases hlost :
              (((legs.filter fun l => l.parlayId = pb.id).map (·.result)).contains "lost") = true
          · rw [if_pos hlost] at H
            rw [optionBind_eq_some] at H
            obtain ⟨⟨ps', users'⟩, hrec, H⟩ := H
            dsimp only at H
            rw [Option.some.injEq] at H
            subst H
            refine List.Forall₂.cons ⟨fun hn => absurd hstat hn, fun _ =>
              ⟨fun htrue => (by rw [htrue] at hany'; cases hany'), fun _ =>
                ⟨fun _ => rfl, fun hfalse => by rw [hlost] at hfalse; cases hfalse⟩⟩⟩ (ih hrec)
          · rw [if_neg hlost] at H
            have hlost' :
                (((legs.filter fun l => l.parlayId = pb.id).map (·.result)).contains "lost")
                  = false := Bool.not_eq_true _ |>.mp hlost
            by_cases hall :
                (((legs.filter fun l => l.parlayId = pb.id).map (·.result)).all
                  (fun r => r = "won" ∨ r = "push")) = true
            · rw [if_pos hall] at H
              rw [optionBind_eq_some] at H
              obtain ⟨m, hm, H⟩ := H
              rw [optionBind_eq_some] at H
              obtain ⟨⟨ps', users''⟩, hrec, H⟩ := H
              dsimp only at H
              rw [Option.some.injEq] at H
              subst H
              refine List.Forall₂.cons ⟨fun hn => absurd hstat hn, fun _ =>
                ⟨fun htrue => (by rw [htrue] at hany'; cases hany'), fun _ =>
                  ⟨fun htrue => (by rw [htrue] at hlost'; cases hlost'), fun _ =>
                    ⟨fun _ => ⟨m, hm, rfl⟩,
                     fun hfalse => by rw [hall] at hfalse; cases hfalse⟩⟩⟩⟩ (ih hrec)
            · rw [if_neg hall] at H
              have hall' :
                  (((legs.filter fun l => l.parlayId = pb.id).map (·.result)).all
                    (fun r => r = "won" ∨ r = "push")) = false := Bool.not_eq_true _ |>.mp hall
              rw [optionBind_eq_some] at H
              obtain ⟨⟨ps', users''⟩, hrec, H⟩ := H
              dsimp only at H
              rw [Option.some.injEq] at H
              subst H
              refine List.Forall₂.cons ⟨fun hn => absurd hstat hn, fun _ =>
                ⟨fun htrue => (by rw [htrue] at hany'; cases hany'), fun _ =>
                  ⟨fun htrue => (by rw [htrue] at hlost'; cases hlost'), fun _ =>
                    ⟨fun htrue => (by rw [htrue] at hall'; cases hall'),
                     fun _ => rfl⟩⟩⟩⟩ (ih hrec)
      · rw [if_neg hstat] at H
        rw [optionBind_eq_some] at H
        obtain ⟨⟨ps', users'⟩, hrec, H⟩ := H
        dsimp only at H
        rw [Option.some.injEq] at H
        subst H
        exact List.Forall₂.cons ⟨fun _ => rfl, fun hp => absurd hp hstat⟩ (ih hrec)

theorem resolveParlaysPass_id {legs : List ParlayLeg} :
    ∀ {ps : List ParlayBet} {users : List User},
      (∀ pb ∈ ps, pb.status = "pending" →
        (((legs.filter fun l => l.parlayId = pb.id).map (·.result)).any (· = "pending")) = true) →
      resolveParlaysPass legs ps users = some (ps, users) := by
  intro ps
  induction ps with
  | nil => intro users _; rw [resolveParlaysPass]
  | cons pb ps ih =>
      intro users h
      rw [resolveParlaysPass]
      by_cases hstat : pb.status = "pending"
      · rw [if_pos hstat]
        dsimp only
        rw [if_pos (h pb (List.mem_cons_self pb ps) hstat)]
        rw [ih fun x hx hp => h x (List.mem_cons_of_mem pb hx) hp]
        rfl
      · rw [if_neg hstat]
        rw [ih fun x hx hp => h x (List.mem_cons_of_mem pb hx) hp]
        rfl

theorem admin_grade_game_inv {st : DBState} {gid : ℕ} {h a : ℤ} {st' : DBState}
    (H : admin_grade_game st gid h a = some st') :
    ∃ bu pu,
      gradeBetsPass (h - a) (h + a) gid st.bets st.users = some bu ∧
      resolveParlaysPass (gradeLegsPass (h - a) (h + a) gid st.legs) st.parlays bu.2 =
        some pu ∧
      st' = { st with
        users := pu.2,
        games := st.games.map (fun g => if g.id = gid then
          { g with homeScore := some h, awayScore := some a, status := "graded" } else g),
        bets := bu.1,
        parlays := pu.1,
        legs := gradeLegsPass (h - a) (h + a) gid st.legs } := by
  rw [admin_grade_game] at H
  rw [optionBind_eq_some] at H
  obtain ⟨g, hg, H⟩ := H
  rw [optionBind_eq_some] at H
  obtain ⟨⟨bets', users'⟩, hbp, H⟩ := H
  dsimp only at H
  rw [optionBind_eq_some] at H
  obtain ⟨⟨parlays', users''⟩, hpp, H⟩ := H
  dsimp only at H
  rw [Option.some.injEq] at H
  exact ⟨(bets', users'), (parlays', users''), hbp, hpp, H.symm⟩

theorem gradeBetOutcome_spread {margin totalPts : ℤ} {b : Bet} {l : ℚ}
    (hT : b.betType = "SPREAD") (hl : b.line.getD 0 = l) :
    gradeBetOutcome margin totalPts b =
      if (margin : ℚ) - l = 0 then some ("push", b.stake)
      else if ((margin : ℚ) - l > 0 ∧ b.selection = "HOME") ∨
          (¬((margin : ℚ) - l > 0) ∧ ¬(b.selection = "HOME")) then
        (american_profit b.stake b.odds).map fun pr => ("won", b.stake + pr)
      else some ("lost", 0) := by
  rw [gradeBetOutcome, if_neg (by rw [hT]; decide), if_pos hT, hl]

theorem gradeBetOutcome_total {margin totalPts : ℤ} {b : Bet} {l : ℚ}
    (hT : b.betType = "TOTAL") (hl : b.line.getD 0 = l) :
    gradeBetOutcome margin totalPts b =
      if (totalPts : ℚ) = l then some ("push", b.stake)
      else if ((totalPts : ℚ) > l) ↔ b.selection = "OVER" then
        (american_profit b.stake b.odds).map fun pr => ("won", b.stake + pr)
      else some ("lost", 0) := by
  rw [gradeBetOutcome, if_neg (by rw [hT]; decide), if_neg (by rw [hT]; decide), if_pos hT, hl]

theorem quantize2_zero : quantize2 0 = 0 := by
  rw [quantize2, show (0 : ℚ) * 100 = ((0 : ℤ) : ℚ) by norm_num, roundHalfEvenInt_intCast]
  norm_num

/-! ## The claims -/

/-- C3 (counterexample): at stake 100 and odds 0 the profit function does
not return successfully with profit 0 — the `else` branch divides by
`Decimal(abs(0))` and raises `decimal.DivisionByZero`. -/
theorem c3_zero_odds_raises_cex : american_profit 100 0 = none := by decide

/-- C3 (amended): for every stake, `american_profit` applied to odds 0
falls into the negative-odds branch and raises a division-by-zero error
(returns no value) instead of treating the multiplier as 1. -/
theorem c3_zero_odds_raises (stake : ℚ) : american_profit stake 0 = none := by
  rw [american_profit]
  norm_num

/-- C4: grading the game of `stC4` (score 10-7 against home line 3) makes
both parlay legs `push`; the resolution loop's `elif all(won/push)` branch
then catches the all-push parlay, marking it `"won"` with payout equal to
the stake — not `"push"` as the spec requires (the `else` branch that
would set `"push"` is unreachable). -/
theorem c4_all_push_parlay_marked_won :
    admin_grade_game stC4 1 10 7 = some stC4' ∧
    stC4'.legs.map (·.result) = ["push", "push"] ∧
    stC4'.parlays.map (fun pb => (pb.status, pb.payout)) = [("won", 25)] ∧
    ("won" : String) ≠ "push" := by decide

/-- C9: settling a game a second time never touches a wager that is
already terminal: every bet whose status is not `pending` is returned
unchanged by the grading pass, and if every bet of the game is terminal
the single-bet settlement pass is the identity on both the bet table and
the user balances (no additional credit). -/
theorem c9_terminal_bets_unchanged
    {st : DBState} {gid : ℕ} {h a : ℤ} {st' : DBState}
    (hg : admin_grade_game st gid h a = some st') :
    List.Forall₂ (fun b b' : Bet => b.status ≠ "pending" → b' = b) st.bets st'.bets ∧
    ((∀ b ∈ st.bets, b.gameId = gid → b.status ≠ "pending") →
      gradeBetsPass (h - a) (h + a) gid st.bets st.users = some (st.bets, st.users)) := by
  obtain ⟨bu, pu, hbp, hpp, hst⟩ := admin_grade_game_inv hg
  constructor
  · have hforall := gradeBetsPass_forall₂ hbp
    have hbets : st'.bets = bu.1 := by rw [hst]
    rw [hbets]
    exact List.Forall₂.imp (fun b b' hs hn => hs.1 fun hc => hn hc.2) hforall
  · intro hall
    exact gradeBetsPass_id fun b hb hc => hall b hb hc.1 hc.2

/-- C9 (witness): in `stC9` the only bet is already `won`; grading its
game leaves the bet list and the balances untouched. -/
theorem c9_terminal_bets_unchanged_witness :
    admin_grade_game stC9 1 7 0 = some stC9' ∧
    List.Forall₂ (fun b b' : Bet => b.status ≠ "pending" → b' = b) stC9.bets stC9'.bets ∧
    gradeBetsPass (7 - 0) (7 + 0) 1 stC9.bets stC9.users = some (stC9.bets, stC9.users) := by
  have H : admin_grade_game stC9 1 7 0 = some stC9' := by decide
  obtain ⟨h1, h2⟩ := c9_terminal_bets_unchanged H
  exact ⟨H, h1, h2 (by decide)⟩

/-- C10: the parlay-resolution pass runs over every pending parlay in the
system, not only those with a leg on the just-graded game: any pending
parlay none of whose legs references the graded game and all of whose
legs already have terminal results comes out of the grading operation
with a terminal status (`lost`, `won` or `push`). -/
theorem c10_unrelated_parlays_finalized
    {st : DBState} {gid : ℕ} {h a : ℤ} {st' : DBState}
    (hg : admin_grade_game st gid h a = some st') :
    List.Forall₂ (fun pb pb' : ParlayBet =>
      pb.status = "pending" →
      (∀ l ∈ st.legs, l.parlayId = pb.id → l.gameId ≠ gid ∧ l.result ≠ "pending") →
      pb'.status = "lost" ∨ pb'.status = "won" ∨ pb'.status = "push")
      st.parlays st'.parlays := by
  obtain ⟨bu, pu, hbp, hpp, hst⟩ := admin_grade_game_inv hg
  have hparl : st'.parlays = pu.1 := by rw [hst]
  rw [hparl]
  refine List.Forall₂.imp ?_ (resolveParlaysPass_forall₂ hpp)
  intro pb pb' hspec hpend hlegs
  have hfilter :
      (gradeLegsPass (h - a) (h + a) gid st.legs).filter (fun l => l.parlayId = pb.id) =
        st.legs.filter (fun l => l.parlayId = pb.id) :=
    gradeLegsPass_filter_parlay fun l hl hp hc => (hlegs l hl hp).1 hc.1
  have hstep := hspec.2 hpend
  rw [hfilter] at hstep
  have hany : ((st.legs.filter fun l => l.parlayId = pb.id).map (·.result)).any
      (· = "pending") = false := by
    rw [← Bool.not_eq_true, List.any_eq_true]
    rintro ⟨r, hr, hrp⟩
    rw [List.mem_map] at hr
    obtain ⟨l, hlmem, hlr⟩ := hr
    rw [List.mem_filter] at hlmem
    obtain ⟨hlm, hlp⟩ := hlmem
    have := (hlegs l hlm (of_decide_eq_true hlp)).2
    rw [hlr] at this
    exact this (of_decide_eq_true hrp)
  have hrest := hstep.2 hany
  by_cases hlost : ((st.legs.filter fun l => l.parlayId = pb.id).map (·.result)).contains
      "lost" = true
  · rw [hrest.1 hlost]
    left
    rfl
  · have hlost' := Bool.not_eq_true _ |>.mp hlost
    by_cases hall : ((st.legs.filter fun l => l.parlayId = pb.id).map (·.result)).all
        (fun r => r = "won" ∨ r = "push") = true
    · obtain ⟨m, _, hb'⟩ := (hrest.2 hlost').1 hall
      rw [hb']
      right; left
      rfl
    · have hall' := Bool.not_eq_true _ |>.mp hall
      rw [(hrest.2 hlost').2 hall']
      right; right
      rfl

/-- C10 (witness): grading game 1 of `stC10` finalizes the pending parlay
whose only (already won) leg sits on the unrelated game 2. -/
theorem c10_unrelated_parlays_finalized_witness :
    admin_grade_game stC10 1 7 0 = some stC10' ∧
    List.Forall₂ (fun pb pb' : ParlayBet =>
      pb.status = "pending" →
      (∀ l ∈ stC10.legs, l.parlayId = pb.id → l.gameId ≠ 1 ∧ l.result ≠ "pending") →
      pb'.status = "lost" ∨ pb'.status = "won" ∨ pb'.status = "push")
      stC10.parlays stC10'.parlays ∧
    stC10'.parlays.map (fun pb => (pb.status, pb.payout)) = [("won", 20)] := by
  have H : admin_grade_game stC10 1 7 0 = some stC10' := by decide
  exact ⟨H, c10_unrelated_parlays_finalized H, by decide⟩

/-- C2 (counterexample): the pending SPREAD bet of `stC2` has no line
snapshot; grading its game 7-0 grades it against the default line 0 and
marks it `lost` with payout 0 and no balance credit — it is not graded
`void` and the stake is not refunded. -/
theorem c2_missing_line_not_void_cex :
    admin_grade_game stC2 1 7 0 = some stC2' ∧
    stC2.bets.map (fun b => (b.betType, b.line, b.status)) = [("SPREAD", none, "pending")] ∧
    stC2'.bets.map (fun b => (b.status, b.payout)) = [("lost", 0)] ∧
    stC2'.users = stC2.users := by decide

/-- C2 (amended): a pending SPREAD or TOTAL bet whose line snapshot is
missing is settled against a default line of 0 (`Decimal(bet.line or 0)`):
SPREAD pushes (payout = stake) only when the margin is exactly 0 and
otherwise wins or loses by the sign of the margin against the pick; TOTAL
pushes only when the combined score is 0 and otherwise compares the total
against 0.  The bet is never graded `void`. -/
theorem c2_missing_line_defaults_to_zero
    {st : DBState} {gid : ℕ} {h a : ℤ} {st' : DBState}
    (hg : admin_grade_game st gid h a = some st') :
    List.Forall₂ (fun b b' : Bet =>
      b.gameId = gid → b.status = "pending" → b.line = none → (b.stake * 100).den = 1 →
      (b.betType = "SPREAD" →
        (h - a = 0 → b'.status = "push" ∧ b'.payout = b.stake) ∧
        (h - a ≠ 0 →
          ((0 < h - a ↔ b.selection = "HOME") → b'.status = "won") ∧
          (¬(0 < h - a ↔ b.selection = "HOME") → b'.status = "lost" ∧ b'.payout = 0))) ∧
      (b.betType = "TOTAL" →
        (h + a = 0 → b'.status = "push" ∧ b'.payout = b.stake) ∧
        (h + a ≠ 0 →
          ((0 < h + a ↔ b.selection = "OVER") → b'.status = "won") ∧
          (¬(0 < h + a ↔ b.selection = "OVER") → b'.status = "lost" ∧ b'.payout = 0))))
      st.bets st'.bets := by
  obtain ⟨bu, pu, hbp, hpp, hst⟩ := admin_grade_game_inv hg
  have hbets : st'.bets = bu.1 := by rw [hst]
  rw [hbets]
  refine List.Forall₂.imp ?_ (gradeBetsPass_forall₂ hbp)
  intro b b' hs hid hpend hline hden
  obtain ⟨r, hr, hb'⟩ := hs.2 hid hpend
  have hl0 : b.line.getD 0 = 0 := by rw [hline]; rfl
  constructor
  · intro hT
    rw [gradeBetOutcome_spread hT hl0] at hr
    constructor
    · intro hm0
      have hc : ((h - a : ℤ) : ℚ) - 0 = 0 := by
        rw [hm0]; norm_num
      rw [if_pos hc, Option.some.injEq] at hr
      subst hr
      rw [hb']
      exact ⟨rfl, quantize2_fix hden⟩
    · intro hm
      have hc : ¬(((h - a : ℤ) : ℚ) - 0 = 0) := by
        rw [sub_zero, Int.cast_eq_zero]; exact hm
      rw [if_neg hc] at hr
      have hposiff : ((h - a : ℤ) : ℚ) - 0 > 0 ↔ 0 < h - a := by
        rw [sub_zero]; exact_mod_cast Iff.rfl
      constructor
      · intro hiff
        have hcond : (((h - a : ℤ) : ℚ) - 0 > 0 ∧ b.selection = "HOME") ∨
            (¬(((h - a : ℤ) : ℚ) - 0 > 0) ∧ ¬(b.selection = "HOME")) := by
          by_cases hpos : 0 < h - a
          · exact Or.inl ⟨hposiff.mpr hpos, hiff.mp hpos⟩
          · exact Or.inr ⟨fun hq => hpos (hposiff.mp hq), fun hq => hpos (hiff.mpr hq)⟩
        rw [if_pos hcond, Option.map_eq_some'] at hr
        obtain ⟨pr, _, hrr⟩ := hr
        subst hrr
        rw [hb']
      · intro hniff
        have hcond : ¬((((h - a : ℤ) : ℚ) - 0 > 0 ∧ b.selection = "HOME") ∨
            (¬(((h - a : ℤ) : ℚ) - 0 > 0) ∧ ¬(b.selection = "HOME"))) := by
          rintro (⟨hp, hq⟩ | ⟨hp, hq⟩)
          · exact hniff ⟨fun _ => hq, fun _ => hposiff.mp hp⟩
          · exact hniff ⟨fun hx => absurd (hposiff.mpr hx) hp, fun hx => absurd hx hq⟩
        rw [if_neg hcond, Option.some.injEq] at hr
        subst hr
        rw [hb']
        exact ⟨rfl, quantize2_zero⟩
  · intro hT
    rw [gradeBetOutcome_total hT hl0] at hr
    have hposiff : ((h + a : ℤ) : ℚ) > 0 ↔ 0 < h + a := by exact_mod_cast Iff.rfl
    constructor
    · intro ht0
      have hc : ((h + a : ℤ) : ℚ) = 0 := by rw [ht0]; norm_num
      rw [if_pos hc, Option.some.injEq] at hr
      subst hr
      rw [hb']
      exact ⟨rfl, quantize2_fix hden⟩
    · intro hm
      have hc : ¬(((h + a : ℤ) : ℚ) = 0) := by
        rw [Int.cast_eq_zero]; exact hm
      rw [if_neg hc] at hr
      constructor
      · intro hiff
        have hcond : ((h + a : ℤ) : ℚ) > 0 ↔ b.selection = "OVER" :=
          hposiff.trans hiff
        rw [if_pos hcond, Option.map_eq_some'] at hr
        obtain ⟨pr, _, hrr⟩ := hr
        subst hrr
        rw [hb']
      · intro hniff
        have hcond : ¬(((h + a : ℤ) : ℚ) > 0 ↔ b.selection = "OVER") := fun hx =>
          hniff (hposiff.symm.trans hx)
        rw [if_neg hcond, Option.some.injEq] at hr
        subst hr
        rw [hb']
        exact ⟨rfl, quantize2_zero⟩

/-- C2 (witness): the amended behaviour at the concrete state `stC2`
(margin 7 against default line 0, away pick, so the bet loses). -/
theorem c2_missing_line_defaults_to_zero_witness :
    admin_grade_game stC2 1 7 0 = some stC2' ∧
    List.Forall₂ (fun b b' : Bet =>
      b.gameId = 1 → b.status = "pending" → b.line = none → (b.stake * 100).den = 1 →
      (b.betType = "SPREAD" →
        ((7 : ℤ) - 0 = 0 → b'.status = "push" ∧ b'.payout = b.stake) ∧
        ((7 : ℤ) - 0 ≠ 0 →
          ((0 < (7 : ℤ) - 0 ↔ b.selection = "HOME") → b'.status = "won") ∧
          (¬(0 < (7 : ℤ) - 0 ↔ b.selection = "HOME") → b'.status = "lost" ∧ b'.payout = 0))) ∧
      (b.betType = "TOTAL" →
        ((7 : ℤ) + 0 = 0 → b'.status = "push" ∧ b'.payout = b.stake) ∧
        ((7 : ℤ) + 0 ≠ 0 →
          ((0 < (7 : ℤ) + 0 ↔ b.selection = "OVER") → b'.status = "won") ∧
          (¬(0 < (7 : ℤ) + 0 ↔ b.selection = "OVER") → b'.status = "lost" ∧ b'.payout = 0))))
      stC2.bets stC2'.bets :=
  ⟨by decide, c2_missing_line_defaults_to_zero (by decide)⟩

/-- C8: for a pending SPREAD bet with a present line, grading follows the
spec's formula: with `adjusted = (home - away) - line` for a HOME pick and
the mirrored `(away - home) - (-line)` for an AWAY pick, the bet pushes
(payout = stake) exactly when `adjusted = 0`, wins exactly when
`adjusted > 0`, and loses exactly when `adjusted < 0`. -/
theorem c8_spread_mirrored_grading
    {st : DBState} {gid : ℕ} {h a : ℤ} {st' : DBState}
    (hg : admin_grade_game st gid h a = some st') :
    List.Forall₂ (fun b b' : Bet =>
      ∀ l : ℚ, b.gameId = gid → b.status = "pending" → b.betType = "SPREAD" →
        b.line = some l → (b.stake * 100).den = 1 →
        (b.selection = "HOME" →
          ((b'.status = "push" ↔ (h : ℚ) - a - l = 0) ∧
           (b'.status = "won" ↔ 0 < (h : ℚ) - a - l) ∧
           (b'.status = "lost" ↔ (h : ℚ) - a - l < 0) ∧
           ((h : ℚ) - a - l = 0 → b'.payout = b.stake))) ∧
        (b.selection = "AWAY" →
          ((b'.status = "push" ↔ (a : ℚ) - h - (-l) = 0) ∧
           (b'.status = "won" ↔ 0 < (a : ℚ) - h - (-l)) ∧
           (b'.status = "lost" ↔ (a : ℚ) - h - (-l) < 0) ∧
           ((a : ℚ) - h - (-l) = 0 → b'.payout = b.stake))))
      st.bets st'.bets := by
  obtain ⟨bu, pu, hbp, hpp, hst⟩ := admin_grade_game_inv hg
  have hbets : st'.bets = bu.1 := by rw [hst]
  rw [hbets]
  refine List.Forall₂.imp ?_ (gradeBetsPass_forall₂ hbp)
  intro b b' hs l hid hpend hT hline hden
  obtain ⟨r, hr, hb'⟩ := hs.2 hid hpend
  have hl : b.line.getD 0 = l := by rw [hline]; rfl
  rw [gradeBetOutcome_spread hT hl] at hr
  have hM : ((h - a : ℤ) : ℚ) - l = (h : ℚ) - a - l := by push_cast; ring
  have hAz : (a : ℚ) - h - (-l) = -((h : ℚ) - a - l) := by ring
  rw [hM] at hr
  refine ⟨?_, ?_⟩
  · intro hsel
    rcases lt_trichotomy ((h : ℚ) - a - l) 0 with hcase | hcase | hcase
    · rw [if_neg (by linarith), if_neg (by
        rintro (⟨hp, _⟩ | ⟨_, hq⟩)
        · linarith
        · exact hq hsel), Option.some.injEq] at hr
      subst hr
      rw [hb']
      exact ⟨iff_of_false (by simp) (by linarith), iff_of_false (by simp) (by linarith),
        iff_of_true rfl hcase, fun hx => absurd hx (by linarith)⟩
    · rw [if_pos hcase, Option.some.injEq] at hr
      subst hr
      rw [hb']
      exact ⟨iff_of_true rfl hcase, iff_of_false (by simp) (by linarith),
        iff_of_false (by simp) (by linarith), fun _ => quantize2_fix hden⟩
    · rw [if_neg (by linarith), if_pos (Or.inl ⟨hcase, hsel⟩), Option.map_eq_some'] at hr
      obtain ⟨pr, _, hrr⟩ := hr
      subst hrr
      rw [hb']
      exact ⟨iff_of_false (by simp) (by linarith), iff_of_true rfl hcase,
        iff_of_false (by simp) (by linarith), fun hx => absurd hx (by linarith)⟩
  · intro hsel
    have hnh : ¬(b.selection = "HOME") := by rw [hsel]; decide
    rw [hAz]
    rcases lt_trichotomy ((h : ℚ) - a - l) 0 with hcase | hcase | hcase
    · rw [if_neg (by linarith), if_pos (Or.inr ⟨by linarith, hnh⟩), Option.map_eq_some'] at hr
      obtain ⟨pr, _, hrr⟩ := hr
      subst hrr
      rw [hb']
      exact ⟨iff_of_false (by simp) (by linarith), iff_of_true rfl (by linarith),
        iff_of_false (by simp) (by linarith), fun hx => absurd hx (by linarith)⟩
    · rw [if_pos hcase, Option.some.injEq] at hr
      subst hr
      rw [hb']
      exact ⟨iff_of_true rfl (by linarith), iff_of_false (by simp) (by linarith),
        iff_of_false (by simp) (by linarith), fun _ => quantize2_fix hden⟩
    · rw [if_neg (by linarith), if_neg (by
        rintro (⟨_, hq⟩ | ⟨hp, _⟩)
        · exact hnh hq
        · exact hp (by linarith)), Option.some.injEq] at hr
      subst hr
      rw [hb']
      exact ⟨iff_of_false (by simp) (by linarith), iff_of_false (by simp) (by linarith),
        iff_of_true rfl (by linarith), fun hx => absurd hx (by linarith)⟩

/-- C8 (witness): the boundary case from the spec — an integer home line
of 3 with final margin exactly 3 (score 10-7) — pushes, with the stake
refunded. -/
theorem c8_spread_mirrored_grading_witness :
    admin_grade_game stC8 1 10 7 = some stC8' ∧
    List.Forall₂ (fun b b' : Bet =>
      ∀ l : ℚ, b.gameId = 1 → b.status = "pending" → b.betType = "SPREAD" →
        b.line = some l → (b.stake * 100).den = 1 →
        (b.selection = "HOME" →
          ((b'.status = "push" ↔ (10 : ℚ) - 7 - l = 0) ∧
           (b'.status = "won" ↔ 0 < (10 : ℚ) - 7 - l) ∧
           (b'.status = "lost" ↔ (10 : ℚ) - 7 - l < 0) ∧
           ((10 : ℚ) - 7 - l = 0 → b'.payout = b.stake))) ∧
        (b.selection = "AWAY" →
          ((b'.status = "push" ↔ (7 : ℚ) - 10 - (-l) = 0) ∧
           (b'.status = "won" ↔ 0 < (7 : ℚ) - 10 - (-l)) ∧
           (b'.status = "lost" ↔ (7 : ℚ) - 10 - (-l) < 0) ∧
           ((7 : ℚ) - 10 - (-l) = 0 → b'.payout = b.stake))))
      stC8.bets stC8'.bets ∧
    stC8'.bets.map (fun b => (b.status, b.payout)) = [("push", 10)] :=
  ⟨by decide, c8_spread_mirrored_grading (by decide), by decide⟩

/-- C6 (counterexample): the profit is not rounded half-up at the cent.
Stake 0.15 at odds +150 has exact profit 0.225; half-up rounding (the
claim) gives 0.23, but the code's `quantize` rounds half to even and
returns 0.22. -/
theorem c6_profit_not_half_up_cex :
    american_profit (15/100) 150 = some (22/100) ∧
    roundHalfUp2 ((15/100) * (decimalMultiplierSpec 150 - 1)) = 23/100 ∧
    (22 : ℚ)/100 ≠ 23/100 := by decide

/-- C6 (amended): for every positive 2-decimal stake up to 10^10 and every
nonzero odds of magnitude at most 10^9, the profit is
`stake * (decimalMultiplier(odds) - 1)` — `stake * odds/100` for positive
odds, `stake * 100/|odds|` for negative odds — carried at the `Decimal`
context's 28 significant digits and rounded to 2 decimal places half to
even (banker's rounding), not half-up; the spec's concrete examples
(100 at +150 and 100 at -200) are unaffected because they are exact. -/
theorem c6_profit_formula_half_even
    {stake : ℚ} {odds : ℤ}
    (hpos : 0 < stake) (hden : (stake * 100).den = 1) (hmax : stake ≤ 10 ^ 10)
    (ho : odds ≠ 0) (homax : odds.natAbs ≤ 10 ^ 9) :
    american_profit stake odds =
      some (quantize2 (round28 (stake * (decimalMultiplierSpec odds - 1)))) := by
  have habs : |(odds : ℚ)| = ((odds.natAbs : ℚ)) := by
    rw [Int.cast_natAbs, Int.cast_abs]
  rcases lt_trichotomy odds 0 with hneg | h0 | hposo
  · rw [american_profit, if_neg (by omega), if_neg ho]
    rw [decimalMultiplierSpec, if_neg (by omega), if_pos hneg]
    have hfix : decMul stake 100 = stake * 100 := by
      rw [decMul]
      apply round28_fix
      · have h1 := den_one_mul_intCast hden (100 : ℤ)
        rw [show (((100 : ℤ)) : ℚ) = (100 : ℚ) by norm_num] at h1
        exact h1
      · rw [abs_of_pos (by positivity)]
        nlinarith [hmax, hpos]
    rw [hfix, decDiv]
    congr 2
    ring_nf
  · exact absurd h0 ho
  · rw [american_profit, if_pos hposo]
    rw [decimalMultiplierSpec, if_pos hposo]
    have hfix : decMul stake odds = stake * (odds : ℚ) := by
      rw [decMul]
      apply round28_fix
      · have h1 := den_one_mul_intCast hden odds
        rw [show stake * (odds : ℚ) * 100 = stake * 100 * (odds : ℚ) by ring]
        exact h1
      · rw [abs_mul, abs_of_pos hpos, habs]
        have hc : ((odds.natAbs : ℚ)) ≤ 10 ^ 9 := by exact_mod_cast homax
        nlinarith [hmax, hpos, hc, Nat.cast_nonneg (α := ℚ) odds.natAbs]
    rw [hfix, decDiv]
    congr 2
    ring_nf

/-- C6 (witness): the hypotheses at the spec's concrete scenario, stake
100 at odds +150 (profit 150.00), discharged on the amended theorem. -/
theorem c6_profit_formula_half_even_witness :
    (0 : ℚ) < 100 ∧
    american_profit 100 150 =
      some (quantize2 (round28 (100 * (decimalMultiplierSpec 150 - 1)))) ∧
    american_profit 100 150 = some 150 :=
  ⟨by norm_num,
   c6_profit_formula_half_even (by norm_num) (by decide) (by norm_num) (by decide) (by decide),
   by decide⟩

/-- C5 (counterexample): parlay payouts are not computed in exact decimal
arithmetic.  A single won leg at odds +101 with stake 1.50 has exact
payout 1.50 x 2.01 = 3.015, which rounds to 3.02 under half-even and
under half-up alike; the code converts the leg multiplier through a
binary double (`Decimal(1 + 101/100)` is slightly below 2.01) and pays
3.01. -/
theorem c5_parlay_float_not_exact_cex :
    admin_grade_game stC5 1 7 0 = some stC5' ∧
    stC5'.parlays.map (fun pb => (pb.status, pb.payout)) = [("won", 301/100)] ∧
    quantize2 ((3/2) * decimalMultiplierSpec 101) = 302/100 ∧
    roundHalfUp2 ((3/2) * decimalMultiplierSpec 101) = 302/100 ∧
    (301 : ℚ)/100 ≠ 302/100 := by decide

/-- C5 (amended): for every pending parlay all of whose legs are terminal
with none lost and all won or push, resolution sets status `won` and
payout `stake x Π(multiplier over the non-push legs)`, where each leg's
multiplier is the IEEE-754 double nearest `1 + odds/100` (positive odds)
or `1 + 100/|odds|` (negative odds) converted exactly to `Decimal`, the
running product is kept at 28 significant digits, and the result is
rounded to 2 decimals (half to even) once at the end; the spec's concrete
example — legs +100 and -150 with stake 50 — still pays 166.67. -/
theorem c5_parlay_payout_float_formula
    {st : DBState} {gid : ℕ} {h a : ℤ} {st' : DBState}
    (hg : admin_grade_game st gid h a = some st') :
    List.Forall₂ (fun pb pb' : ParlayBet =>
      pb.status = "pending" →
      (((st'.legs.filter fun l => l.parlayId = pb.id).map (·.result)).any (· = "pending")) =
        false →
      (((st'.legs.filter fun l => l.parlayId = pb.id).map (·.result)).contains "lost") = false →
      (((st'.legs.filter fun l => l.parlayId = pb.id).map (·.result)).all
        (fun r => r = "won" ∨ r = "push")) = true →
      ∃ m, parlayMult (st'.legs.filter fun l => l.parlayId = pb.id) 1 = some m ∧
        pb'.status = "won" ∧ pb'.payout = quantize2 (decMul pb.stake m))
      st.parlays st'.parlays := by
  obtain ⟨bu, pu, hbp, hpp, hst⟩ := admin_grade_game_inv hg
  have hparl : st'.parlays = pu.1 := by rw [hst]
  have hlegs : st'.legs = gradeLegsPass (h - a) (h + a) gid st.legs := by rw [hst]
  rw [hparl, hlegs]
  refine List.Forall₂.imp ?_ (resolveParlaysPass_forall₂ hpp)
  intro pb pb' hspec hpend hany hlost hall
  obtain ⟨m, hm, hb'⟩ := (((hspec.2 hpend).2 hany).2 hlost).1 hall
  exact ⟨m, hm, by rw [hb'], by rw [hb']⟩

/-- C5 (witness): the spec's concrete parlay — stake 50, legs graded won
at +100 and -150 — pays exactly 166.67. -/
theorem c5_parlay_payout_float_formula_witness :
    admin_grade_game stC5w 1 7 0 = some stC5w' ∧
    List.Forall₂ (fun pb pb' : ParlayBet =>
      pb.status = "pending" →
      (((stC5w'.legs.filter fun l => l.parlayId = pb.id).map (·.result)).any (· = "pending")) =
        false →
      (((stC5w'.legs.filter fun l => l.parlayId = pb.id).map (·.result)).contains "lost") =
        false →
      (((stC5w'.legs.filter fun l => l.parlayId = pb.id).map (·.result)).all
        (fun r => r = "won" ∨ r = "push")) = true →
      ∃ m, parlayMult (stC5w'.legs.filter fun l => l.parlayId = pb.id) 1 = some m ∧
        pb'.status = "won" ∧ pb'.payout = quantize2 (decMul pb.stake m))
      stC5w.parlays stC5w'.parlays ∧
    stC5w'.parlays.map (·.payout) = [16667/100] :=
  ⟨by decide, @c5_parlay_payout_float_formula stC5w 1 7 0 stC5w' (by decide), by decide⟩

/-- C7 (counterexample): grading is not rejected when the game's status is
already `graded`: the route has no status guard, so re-invoking it on
`stC7` (status `graded`, one still-pending bet) runs the settlement
passes, changes the bet and credits the balance. -/
theorem c7_double_grading_not_rejected_cex :
    stC7.games.map (·.status) = ["graded"] ∧
    admin_grade_game stC7 1 7 0 = some stC7' ∧
    stC7'.bets ≠ stC7.bets ∧
    stC7'.users ≠ stC7.users := by decide

/-- C7 (amended): no guard rejects a second grading — the settlement
passes always run (and the game's scores are overwritten) — but because
each pass filters on pending status, a second invocation on a state where
every bet and leg of the game is already terminal and every pending
parlay still has a pending leg changes no Bet, no ParlayLeg, no
ParlayBet, and no user balance. -/
theorem c7_double_grading_noop_when_settled
    {st : DBState} {gid : ℕ} {h a : ℤ} {g : Game}
    (hfind : st.games.find? (fun g0 => g0.id = gid) = some g)
    (_hgraded : g.status = "graded")
    (hbets : ∀ b ∈ st.bets, b.gameId = gid → b.status ≠ "pending")
    (hlegs : ∀ l ∈ st.legs, l.gameId = gid → l.result ≠ "pending")
    (hparlays : ∀ pb ∈ st.parlays, pb.status = "pending" →
      ∃ l ∈ st.legs, l.parlayId = pb.id ∧ l.result = "pending") :
    ∃ st', admin_grade_game st gid h a = some st' ∧
      st'.bets = st.bets ∧ st'.legs = st.legs ∧ st'.parlays = st.parlays ∧
      st'.users = st.users := by
  have hbid : gradeBetsPass (h - a) (h + a) gid st.bets st.users = some (st.bets, st.users) :=
    gradeBetsPass_id fun b hb hc => hbets b hb hc.1 hc.2
  have hlid : gradeLegsPass (h - a) (h + a) gid st.legs = st.legs :=
    gradeLegsPass_id fun l hl hc => hlegs l hl hc.1 hc.2
  have hpid : resolveParlaysPass st.legs st.parlays st.users = some (st.parlays, st.users) := by
    apply resolveParlaysPass_id
    intro pb hpb hpend
    obtain ⟨l, hlmem, hlp, hlr⟩ := hparlays pb hpb hpend
    rw [List.any_eq_true]
    refine ⟨l.result, ?_, by rw [hlr]; decide⟩
    rw [List.mem_map]
    refine ⟨l, ?_, rfl⟩
    rw [List.mem_filter]
    exact ⟨hlmem, by simp [hlp]⟩
  refine ⟨{ st with games := st.games.map fun g0 =>
      if g0.id = gid then { g0 with homeScore := some h, awayScore := some a, status := "graded" }
      else g0 }, ?_, rfl, rfl, rfl, rfl⟩
  rw [admin_grade_game, optionBind_eq_some]
  refine ⟨g, hfind, ?_⟩
  dsimp only
  rw [optionBind_eq_some]
  refine ⟨(st.bets, st.users), hbid, ?_⟩
  dsimp only
  rw [optionBind_eq_some]
  refine ⟨(st.parlays, st.users), ?_, ?_⟩
  · rw [hlid]
    exact hpid
  · dsimp only
    rw [hlid]

/-- C7 (witness): `stC7w` has a graded game whose bets and legs are all
terminal and one pending parlay that still waits on another game; a
second grading leaves all wagers, parlays and balances unchanged. -/
theorem c7_double_grading_noop_when_settled_witness :
    stC7w.games.find? (fun g0 => g0.id = 1) = some ⟨1, "graded", some 7, some 0⟩ ∧
    (∃ st', admin_grade_game stC7w 1 7 0 = some st' ∧
      st'.bets = stC7w.bets ∧ st'.legs = stC7w.legs ∧ st'.parlays = stC7w.parlays ∧
      st'.users = stC7w.users) :=
  ⟨by decide,
   @c7_double_grading_noop_when_settled stC7w 1 7 0 ⟨1, "graded", some 7, some 0⟩
     (by decide) (by decide) (by decide) (by decide) (by decide)⟩

/-- C1: grading a Prop records the result and marks the prop `graded`,
but settles no wager: the route returns before its (unreachable)
settlement block, so the pending bet on the prop keeps status `pending`
and payout 0, and no balance moves — against the claim that every pending
bet referencing the prop is settled in the same operation. -/
theorem c1_prop_grading_settles_no_bets :
    admin_grade_prop stC1 1 (some 25) "" = some stC1' ∧
    stC1.bets.map (fun b => (b.propId, b.status, b.payout)) = [(some 1, "pending", 0)] ∧
    stC1'.props.map (fun p => (p.status, p.resultValue)) = [("graded", some 25)] ∧
    stC1'.bets = stC1.bets ∧
    stC1'.users = stC1.users ∧
    stC1'.parlays = stC1.parlays := by decide

end CFB26
